import Mathlib

/-!
Verification of the job scheduling, progress-estimation and logging core of
the Music-Converter repository (src/musicconverter.py).

The Python classes `JobTracker` and `MusicConverter` are embedded shallowly:
the tracker's mutable attributes become a `TrackerState` record, each method
becomes a state-passing function, and the concurrent run of the worker pool
is modelled by an explicit transition relation (for the instant-by-instant
invariant) and by a sequential linearisation (for end-of-run results).
Python float arithmetic in the progress display is modelled exactly over `ℚ`;
an uncaught exception is modelled by an `Option`/error result.
-/

set_option autoImplicit false

namespace JobTracker

/-- A buffered log entry: the tuple `(timestamp, level, message)` appended by
`JobTracker.log_add` (src/musicconverter.py lines 56-63). -/
structure LogEntry where
  ts : String
  level : String
  msg : String
deriving DecidableEq, Repr

/-- The mutable state of a `JobTracker` (src/musicconverter.py, lines 18-33):
Python attributes `self.prog`, `self.fails`, `self.total`, `self.procs`,
`self.done`, and the manager lists `self.active`, `self.log_queue`,
`self.queue`, together with the contents (lists of written lines) of the three
log files the tracker appends to.  The wall clock read by `log_add` via
`time.strftime` is modelled by the `now` field, which no operation changes.
The `submitted` field is ghost instrumentation counting calls of `queue_job`
(the number of jobs submitted so far); no other operation touches it. -/
structure TrackerState where
  prog : Nat
  fails : List String
  total : Nat
  procs : Nat
  done : String
  active : List String
  log_queue : List LogEntry
  queue : List String
  debug_file : List String
  info_file : List String
  error_file : List String
  now : String
  submitted : Nat
deriving DecidableEq, Repr

/-- The state right after `JobTracker.__init__` (lines 20-33): counters at
zero, empty lists, the initial `self.done` banner string.  The log files are
fresh, hence empty. -/
def initState (total procs : Nat) (now : String) : TrackerState :=
  { prog := 0
    fails := []
    total := total
    procs := procs
    done := ("Waiting for first file to complete . . .")
    active := []
    log_queue := []
    queue := []
    debug_file := []
    info_file := []
    error_file := []
    now := now
    submitted := 0 }

/-- Python `JobTracker.log_add(message, level)` (lines 56-63): appends the tuple
`(timestamp, level, message)` to the in-memory buffer `log_queue`.  The
`log_lock` is elided in this sequential model. -/
def log_add (st : TrackerState) (message : String) (level : String) : TrackerState :=
  { st with log_queue := st.log_queue ++ [⟨st.now, level, message⟩] }

/-- Python `JobTracker.queue_job(new)` (lines 84-95): `queue.append(new)` followed by
a DEBUG log entry.  The ghost `submitted` counter records the submission. -/
def queue_job (st : TrackerState) (new : String) : TrackerState :=
  log_add { st with queue := st.queue ++ [new], submitted := st.submitted + 1 }
    (("Job queued: ") ++ new) (("DEBUG"))

/-- Python `JobTracker.start_job(new)` (lines 97-114): `queue.remove(new)` (removes
the first occurrence; Python raises `ValueError` when `new` is absent, so
theorems about `start_job` carry a membership hypothesis), `active.append(new)`
and an INFO log entry.  The lock and the `time.sleep(0.02)` are elided. -/
def start_job (st : TrackerState) (new : String) : TrackerState :=
  log_add { st with queue := st.queue.erase new, active := st.active ++ [new] }
    (("Job started: ") ++ new) (("INFO"))

/-- Python `JobTracker.end_job(rm)` (lines 116-129): `prog += 1`,
`active.remove(rm)` (first occurrence; membership hypotheses keep us away from
the `ValueError` branch), `done = rm`, and an INFO log entry. -/
def end_job (st : TrackerState) (rm : String) : TrackerState :=
  log_add { st with prog := st.prog + 1, active := st.active.erase rm, done := rm }
    (("Job completed: ") ++ rm) (("INFO"))

/-- An exception delivered to `JobTracker.job_failed`: either the wrapper
`FailedJob(original_exception, identifier)` (lines 13-16) raised by
`MusicConverter.worker`, whose `cause` field stands for
`repr(original_exception)`, or any other exception, whose carried string
stands for `repr(exception)`. -/
inductive PyExn where
  | failedJob (id : String) (cause : String)
  | other (msg : String)
deriving DecidableEq, Repr

/-- Python `JobTracker.job_failed(exception)` (lines 131-138): for a `FailedJob`,
remove the identifier from the active list, append it to `fails`, and log at
ERROR with the message built on lines 135-136; for any other exception, only
log `repr(exception)` at CRITICAL. -/
def job_failed (st : TrackerState) (e : PyExn) : TrackerState :=
  match e with
  | .failedJob i cause =>
      log_add { st with active := st.active.erase i, fails := st.fails ++ [i] }
        ((("Job failed: ") ++ i) ++ ((" - exception: ") ++ cause)) (("ERROR"))
  | .other m => log_add st m (("CRITICAL"))

/-- The severity list of `JobTracker.log_write` (line 71). -/
def loglevels : List String := [("CRITICAL"), ("ERROR"), ("WARNING"), ("INFO"), ("DEBUG")]

/-- The line `'{} - {}: {}\n'.format(*msg)` written by `log_write` (line 77). -/
def formsg (m : LogEntry) : String :=
  m.ts ++ (" - ") ++ m.level ++ (": ") ++ m.msg ++ ("\n")

/-- The body of the write loop of `JobTracker.log_write` (lines 75-82) for a
single buffered message: always append the formatted line to the debug file;
when `loglevels.index(level) < 4` also to the info file; when additionally
`< 2` also to the error file. -/
def write_one (s : TrackerState) (m : LogEntry) : TrackerState :=
  let level := loglevels.indexOf m.level
  let f := formsg m
  let s1 := { s with debug_file := s.debug_file ++ [f] }
  if level < 4 then
    let s2 := { s1 with info_file := s1.info_file ++ [f] }
    if level < 2 then { s2 with error_file := s2.error_file ++ [f] } else s2
  else s1

/-- Python `JobTracker.log_write` (lines 65-82): copy the buffer, clear it (the swap
on lines 67-70, locks elided), then write every buffered message in submission
order through `write_one`. -/
def log_write (st : TrackerState) : TrackerState :=
  (st.log_queue).foldl write_one { st with log_queue := [] }

/-- The numeric core of `JobTracker.show_state` (lines 181-231): the
completion fraction `done = self.prog / self.total` (line 189) and the
estimated time remaining (lines 204-210), as a function of the counts and the
elapsed time `spent`.  Python float arithmetic is modelled exactly over `ℚ`.
A `none` result models the uncaught `ZeroDivisionError` of line 189 when
`total = 0`.  Inside the `try` of lines 205-209, both the probe
`1 / (self.total - n_left)` (exactly when `total = n_left`) and a vanishing
float denominator `self.total - n_left + len(a)/2` raise `ZeroDivisionError`,
which line 209 catches, yielding the sentinel `-1`. -/
def show_state_calc (total prog n_queued n_active : Nat) (spent : ℚ) : Option (ℚ × ℚ) :=
  if total = 0 then none
  else
    let frac : ℚ := (prog : ℚ) / (total : ℚ)
    let n_left : Nat := n_queued + n_active
    let time_left : ℚ :=
      if total = n_left ∨ (total : ℚ) - (n_left : ℚ) + (n_active : ℚ) / 2 = 0 then -1
      else ((total : ℚ) / ((total : ℚ) - (n_left : ℚ) + (n_active : ℚ) / 2) - 1) * spent
    some (frac, time_left)

/-- One observable transition of the tracker during `JobTracker.run`
(lines 140-179).  The pool created by `multiprocessing.Pool()` has `procs`
worker processes, each running at most one job at a time; a job occupies its
worker from its `start_job` (the first statement of `MusicConverter.convert`)
until the pool delivers its callback (`end_job` on success, `job_failed` on
failure).  A `start` step can therefore only fire while fewer than `procs`
jobs are active, and only for a job that was queued.  `queueStep` models one
iteration of the dispatch loop (lines 157-163), `flush` a `log_write` call. -/
inductive Step : TrackerState → TrackerState → Prop where
  | queueStep (st : TrackerState) (j : String) : Step st (queue_job st j)
  | start (st : TrackerState) (j : String) (hq : j ∈ st.queue)
      (hcap : st.active.length < st.procs) : Step st (start_job st j)
  | finish (st : TrackerState) (j : String) (ha : j ∈ st.active) : Step st (end_job st j)
  | fail (st : TrackerState) (j : String) (c : String) (ha : j ∈ st.active) :
      Step st (job_failed st (.failedJob j c))
  | failOther (st : TrackerState) (m : String) : Step st (job_failed st (.other m))
  | flush (st : TrackerState) : Step st (log_write st)

/-- The instant-by-instant invariant of section 8 of the spec: the active set
is bounded by the worker count, and queued + active + completed + failed
accounts for every job submitted so far. -/
def Inv (st : TrackerState) : Prop :=
  st.active.length ≤ st.procs ∧
  st.queue.length + st.active.length + st.prog + st.fails.length = st.submitted

/-- The fields of the state counted by the invariant, bundled for reuse. -/
def counts (s : TrackerState) : List String × List String × Nat × List String × Nat × Nat :=
  (s.queue, s.active, s.prog, s.fails, s.procs, s.submitted)

theorem write_one_counts (s : TrackerState) (m : LogEntry) : counts (write_one s m) = counts s := by
  unfold write_one counts
  by_cases h4 : loglevels.indexOf m.level < 4 <;>
    by_cases h2 : loglevels.indexOf m.level < 2 <;> simp [h4, h2]

theorem foldl_write_one_counts (l : List LogEntry) :
    ∀ s : TrackerState, counts (l.foldl write_one s) = counts s := by
  induction l with
  | nil => intro s; rfl
  | cons m t ih => intro s; simpa [write_one_counts] using ih (write_one s m)

theorem log_write_counts (st : TrackerState) : counts (log_write st) = counts st := by
  unfold log_write
  rw [foldl_write_one_counts]
  rfl

theorem step_inv {s s1 : TrackerState} (h : Step s s1) (hinv : Inv s) : Inv s1 := by
  obtain ⟨hcap, hsum⟩ := hinv
  cases h with
  | queueStep j =>
      refine ⟨?_, ?_⟩ <;> simp only [Inv, queue_job, log_add] <;> (try simp) <;> omega
  | start j hq hcap2 =>
      have hlen : (s.queue.erase j).length = s.queue.length - 1 :=
        List.length_erase_of_mem hq
      have hpos : 0 < s.queue.length := List.length_pos_of_mem hq
      refine ⟨?_, ?_⟩ <;> simp only [Inv, start_job, log_add] <;> (try simp [hlen]) <;> omega
  | finish j ha =>
      have hlen : (s.active.erase j).length = s.active.length - 1 :=
        List.length_erase_of_mem ha
      have hpos : 0 < s.active.length := List.length_pos_of_mem ha
      refine ⟨?_, ?_⟩ <;> simp only [Inv, end_job, log_add] <;> (try simp [hlen]) <;> omega
  | fail j c ha =>
      have hlen : (s.active.erase j).length = s.active.length - 1 :=
        List.length_erase_of_mem ha
      have hpos : 0 < s.active.length := List.length_pos_of_mem ha
      refine ⟨?_, ?_⟩ <;> simp only [Inv, job_failed, log_add] <;> (try simp [hlen]) <;> omega
  | failOther m =>
      refine ⟨?_, ?_⟩ <;> simp only [Inv, job_failed, log_add] <;> omega
  | flush =>
      have h := log_write_counts s
      simp only [counts, Prod.mk.injEq] at h
      obtain ⟨e1, e2, e3, e4, e5, e6⟩ := h
      exact ⟨by rw [e2, e5]; exact hcap, by rw [e1, e2, e3, e4, e6]; exact hsum⟩

/-- C1: at every instant during a run the number of active jobs is at most the
worker count, and queued + active + completed + failed sums to the number of
jobs submitted (queued) so far; the invariant holds initially, every operation
(`queue_job`, `start_job`, `end_job`, `job_failed`, plus `log_write`)
preserves it, and hence it holds in every reachable state. -/
theorem C1_scheduler_invariant :
    (∀ (total procs : Nat) (now : String), Inv (initState total procs now)) ∧
    (∀ s s1 : TrackerState, Inv s → Step s s1 → Inv s1) ∧
    (∀ (total procs : Nat) (now : String) (s : TrackerState),
      Relation.ReflTransGen Step (initState total procs now) s → Inv s) := by
  refine ⟨?_, ?_, ?_⟩
  · intro total procs now
    exact ⟨Nat.zero_le _, rfl⟩
  · intro s s1 hinv h
    exact step_inv h hinv
  · intro total procs now s h
    induction h with
    | refl => exact ⟨Nat.zero_le _, rfl⟩
    | tail _ hstep ih => exact step_inv hstep ih

/-- Witness for C1 at concrete inputs: the invariant holds in the initial
state with three jobs and two workers, and is preserved across a concrete
queue step. -/
theorem C1_scheduler_invariant_witness :
    Inv (initState 3 2 ("")) ∧ Inv (queue_job (initState 3 2 ("")) ("a")) := by
  refine ⟨C1_scheduler_invariant.1 3 2 (""), ?_⟩
  exact C1_scheduler_invariant.2.1 _ _ (C1_scheduler_invariant.1 3 2 (""))
    (Step.queueStep _ ("a"))

/-- The severities whose entries the info stream receives, per the spec:
INFO, WARNING, ERROR and CRITICAL. -/
def isInfoLevel (lv : String) : Bool :=
  lv == ("INFO") || lv == ("WARNING") || lv == ("ERROR") || lv == ("CRITICAL")

/-- The severities whose entries the error stream receives, per the spec:
ERROR and CRITICAL. -/
def isErrorLevel (lv : String) : Bool :=
  lv == ("ERROR") || lv == ("CRITICAL")

theorem indexOf_lt_four_iff (lv : String) :
    loglevels.indexOf lv < 4 ↔ isInfoLevel lv = true := by
  by_cases h0 : lv = ("CRITICAL")
  · subst h0; decide
  by_cases h1 : lv = ("ERROR")
  · subst h1; decide
  by_cases h2 : lv = ("WARNING")
  · subst h2; decide
  by_cases h3 : lv = ("INFO")
  · subst h3; decide
  by_cases h4 : lv = ("DEBUG")
  · subst h4; decide
  have hnot : lv ∉ loglevels := by
    simp only [loglevels, List.mem_cons, List.not_mem_nil, or_false]
    tauto
  have hlen : loglevels.indexOf lv = loglevels.length := List.indexOf_eq_length.mpr hnot
  constructor
  · intro hlt
    rw [hlen] at hlt
    exact absurd hlt (by decide)
  · intro hinfo
    simp only [isInfoLevel, Bool.or_eq_true, beq_iff_eq] at hinfo
    tauto

theorem indexOf_lt_two_iff (lv : String) :
    loglevels.indexOf lv < 2 ↔ isErrorLevel lv = true := by
  by_cases h0 : lv = ("CRITICAL")
  · subst h0; decide
  by_cases h1 : lv = ("ERROR")
  · subst h1; decide
  by_cases h2 : lv = ("WARNING")
  · subst h2; decide
  by_cases h3 : lv = ("INFO")
  · subst h3; decide
  by_cases h4 : lv = ("DEBUG")
  · subst h4; decide
  have hnot : lv ∉ loglevels := by
    simp only [loglevels, List.mem_cons, List.not_mem_nil, or_false]
    tauto
  have hlen : loglevels.indexOf lv = loglevels.length := List.indexOf_eq_length.mpr hnot
  constructor
  · intro hlt
    rw [hlen] at hlt
    exact absurd hlt (by decide)
  · intro herr
    simp only [isErrorLevel, Bool.or_eq_true, beq_iff_eq] at herr
    tauto

theorem foldl_write_one_files (l : List LogEntry) : ∀ s : TrackerState,
    ((l.foldl write_one s).log_queue = s.log_queue) ∧
    ((l.foldl write_one s).debug_file = s.debug_file ++ l.map formsg) ∧
    ((l.foldl write_one s).info_file =
      s.info_file ++ (l.filter fun m => isInfoLevel m.level).map formsg) ∧
    ((l.foldl write_one s).error_file =
      s.error_file ++ (l.filter fun m => isErrorLevel m.level).map formsg) := by
  induction l with
  | nil => intro s; simp
  | cons m t ih =>
      intro s
      obtain ⟨h1, h2, h3, h4⟩ := ih (write_one s m)
      have hinfo := indexOf_lt_four_iff m.level
      have herr := indexOf_lt_two_iff m.level
      simp only [List.foldl_cons, List.map_cons, List.filter_cons]
      by_cases hm4 : loglevels.indexOf m.level < 4 <;>
        by_cases hm2 : loglevels.indexOf m.level < 2
      · have hi : isInfoLevel m.level = true := hinfo.mp hm4
        have he : isErrorLevel m.level = true := herr.mp hm2
        have hw : write_one s m =
            { s with debug_file := s.debug_file ++ [formsg m],
                     info_file := s.info_file ++ [formsg m],
                     error_file := s.error_file ++ [formsg m] } := by
          simp [write_one, hm4, hm2]
        refine ⟨h1.trans (by rw [hw]), ?_, ?_, ?_⟩
        · rw [h2, hw]; simp
        · rw [h3, hw]; simp [hi]
        · rw [h4, hw]; simp [he]
      · have hi : isInfoLevel m.level = true := hinfo.mp hm4
        have he : isErrorLevel m.level = false := by
          cases hb : isErrorLevel m.level
          · rfl
          · exact absurd (herr.mpr hb) hm2
        have hw : write_one s m =
            { s with debug_file := s.debug_file ++ [formsg m],
                     info_file := s.info_file ++ [formsg m] } := by
          simp [write_one, hm4, hm2]
        refine ⟨h1.trans (by rw [hw]), ?_, ?_, ?_⟩
        · rw [h2, hw]; simp
        · rw [h3, hw]; simp [hi]
        · rw [h4, hw]; simp [he]
      · exact absurd (lt_trans hm2 (by decide)) hm4
      · have hi : isInfoLevel m.level = false := by
          cases hb : isInfoLevel m.level
          · rfl
          · exact absurd (hinfo.mpr hb) hm4
        have he : isErrorLevel m.level = false := by
          cases hb : isErrorLevel m.level
          · rfl
          · exact absurd (lt_trans (herr.mpr hb) (by decide)) hm4
        have hw : write_one s m =
            { s with debug_file := s.debug_file ++ [formsg m] } := by
          simp [write_one, hm4]
        refine ⟨h1.trans (by rw [hw]), ?_, ?_, ?_⟩
        · rw [h2, hw]; simp
        · rw [h3, hw]; simp [hi]
        · rw [h4, hw]; simp [he]

/-- C5: `log_write` clears the buffer (so producers append to a fresh buffer)
and writes the buffered entries, in submission order, to the three streams
filtered by severity: the debug stream receives every entry, the info stream
exactly those at INFO, WARNING, ERROR or CRITICAL, and the error stream
exactly those at ERROR or CRITICAL.  All other state is untouched. -/
theorem C5_log_write_flush (st : TrackerState) :
    (log_write st).log_queue = [] ∧
    (log_write st).debug_file = st.debug_file ++ st.log_queue.map formsg ∧
    (log_write st).info_file =
      st.info_file ++ (st.log_queue.filter fun m => isInfoLevel m.level).map formsg ∧
    (log_write st).error_file =
      st.error_file ++ (st.log_queue.filter fun m => isErrorLevel m.level).map formsg := by
  obtain ⟨h1, h2, h3, h4⟩ := foldl_write_one_files st.log_queue { st with log_queue := [] }
  exact ⟨h1, h2, h3, h4⟩

/-- C2 counterexample: at total = 4, completed = 1, queued = 1, active = 2
(remaining = 3) and elapsed = 6, the code computes an eta of 6 seconds,
while the claimed formula elapsed * (remaining − activeCount/2) /
(total − remaining) gives 12, so the claim as stated is false on the code. -/
theorem C2_eta_claim_counterexample :
    (show_state_calc 4 1 1 2 6).map Prod.snd = some 6 ∧
    (6 : ℚ) * ((3 : ℚ) - (2 : ℚ) / 2) / ((4 : ℚ) - 3) = 12 ∧
    (6 : ℚ) ≠ 12 := by
  refine ⟨?_, by norm_num, by norm_num⟩
  norm_num [show_state_calc]

/-- C2 amended: for every state with 0 < remaining < total, the estimated
time remaining equals elapsed * (remaining − activeCount/2) /
((total − remaining) + activeCount/2): the elapsed time scaled by effective
remaining work over finished work, where the finished work is also credited
with half of each active job (completed + activeCount/2), not
total − remaining alone. -/
theorem C2_eta_formula (total prog n_queued n_active : Nat) (spent : ℚ)
    (hpos : 0 < n_queued + n_active) (hlt : n_queued + n_active < total) :
    show_state_calc total prog n_queued n_active spent =
      some ((prog : ℚ) / (total : ℚ),
        spent * (((n_queued : ℚ) + (n_active : ℚ)) - (n_active : ℚ) / 2) /
          (((total : ℚ) - ((n_queued : ℚ) + (n_active : ℚ))) + (n_active : ℚ) / 2)) := by
  have ht : total ≠ 0 := by omega
  have hne : total ≠ n_queued + n_active := by omega
  have hcast : ((n_queued : ℚ) + (n_active : ℚ)) + 1 ≤ (total : ℚ) := by
    have : ((n_queued + n_active + 1 : Nat) : ℚ) ≤ ((total : Nat) : ℚ) := by
      exact_mod_cast Nat.cast_le.mpr hlt
    push_cast at this
    linarith
  have hhalf : (0 : ℚ) ≤ (n_active : ℚ) / 2 := by positivity
  have hden : (total : ℚ) - ((n_queued + n_active : Nat) : ℚ) + (n_active : ℚ) / 2 ≠ 0 := by
    push_cast
    linarith
  simp only [show_state_calc, if_neg ht]
  rw [if_neg]
  · congr 1
    push_cast
    have hd : (total : ℚ) - ((n_queued : ℚ) + (n_active : ℚ)) + (n_active : ℚ) / 2 ≠ 0 := by
      push_cast at hden
      exact hden
    rw [div_sub_one hd]
    have hnum : (total : ℚ) - ((total : ℚ) - ((n_queued : ℚ) + (n_active : ℚ)) +
        (n_active : ℚ) / 2) = ((n_queued : ℚ) + (n_active : ℚ)) - (n_active : ℚ) / 2 := by
      ring
    rw [hnum]
    ring_nf
  · push_cast at hden ⊢
    tauto

/-- Witness for C2 amended at total = 4, completed = 1, queued = 1,
active = 2, elapsed = 6: the code yields eta = 6 = 6*(3 − 1)/((4 − 3) + 1). -/
theorem C2_eta_formula_witness :
    show_state_calc 4 1 1 2 6 =
      some ((1 : ℚ) / 4,
        (6 : ℚ) * (((1 : ℚ) + 2) - (2 : ℚ) / 2) / (((4 : ℚ) - ((1 : ℚ) + 2)) + (2 : ℚ) / 2)) := by
  exact C2_eta_formula 4 1 1 2 6 (by norm_num) (by norm_num)

/-- C6 counterexample: with total = 10 and remaining = 0 (every job finished)
the code returns eta 0, not the sentinel −1 the claim requires for
remaining = 0. -/
theorem C6_sentinel_counterexample :
    (show_state_calc 10 10 0 0 5).map Prod.snd = some 0 ∧ (0 : ℚ) ≠ -1 := by
  constructor
  · norm_num [show_state_calc]
  · norm_num

/-- C6 amended: whenever total ≠ 0 the computation raises no exception; the
sentinel −1 is returned when remaining = total (nothing finished yet), while
remaining = 0 yields eta 0, not the sentinel. -/
theorem C6_eta_degenerate_cases :
    (∀ (total prog n_queued n_active : Nat) (spent : ℚ), total ≠ 0 →
      n_queued + n_active = total →
      (show_state_calc total prog n_queued n_active spent).map Prod.snd = some (-1)) ∧
    (∀ (total prog : Nat) (spent : ℚ), total ≠ 0 →
      (show_state_calc total prog 0 0 spent).map Prod.snd = some 0) := by
  constructor
  · intro total prog n_queued n_active spent ht hsum
    simp only [show_state_calc, if_neg ht]
    rw [if_pos (Or.inl hsum.symm)]
    simp
  · intro total prog spent ht
    have htq : ((total : ℚ)) ≠ 0 := Nat.cast_ne_zero.mpr ht
    simp only [show_state_calc, if_neg ht]
    rw [if_neg]
    · simp [div_self htq]
    · push_cast
      simp [ht, htq]

/-- Witness for C6 amended at concrete inputs: remaining = total = 10 gives
the sentinel; total = 10 with remaining = 0 gives eta 0. -/
theorem C6_eta_degenerate_cases_witness :
    (show_state_calc 10 0 10 0 5).map Prod.snd = some (-1) ∧
    (show_state_calc 10 10 0 0 5).map Prod.snd = some 0 :=
  ⟨C6_eta_degenerate_cases.1 10 0 10 0 5 (by norm_num) (by norm_num),
   C6_eta_degenerate_cases.2 10 10 5 (by norm_num)⟩

/-- C9: when `job_failed` receives an exception that is not a `FailedJob`
(lines 137-138), the queued list, active list, completed count and failed
list are all unchanged; only a CRITICAL entry is appended to the log buffer,
so a job that is active stays active — it never reaches a terminal state
through this path. -/
theorem C9_non_failedjob_keeps_state (st : TrackerState) (m : String) :
    (job_failed st (.other m)).queue = st.queue ∧
    (job_failed st (.other m)).active = st.active ∧
    (job_failed st (.other m)).prog = st.prog ∧
    (job_failed st (.other m)).fails = st.fails ∧
    (job_failed st (.other m)).log_queue = st.log_queue ++ [⟨st.now, ("CRITICAL"), m⟩] ∧
    (∀ j, j ∈ st.active → j ∈ (job_failed st (.other m)).active) := by
  refine ⟨rfl, rfl, rfl, rfl, rfl, ?_⟩
  intro j hj
  simpa [job_failed, log_add] using hj

/-- Witness for C9: a concrete active job stays active across a
non-`FailedJob` failure delivery. -/
theorem C9_non_failedjob_keeps_state_witness :
    ("a") ∈ (job_failed { initState 1 1 ("") with active := [("a")] }
      (PyExn.other ("boom"))).active :=
  (C9_non_failedjob_keeps_state { initState 1 1 ("") with active := [("a")] }
    ("boom")).2.2.2.2.2 ("a") (by simp)

/-- The outcome the pool delivers for one dispatched task of `JobTracker.run`:
either the return value of the task function (the job identifier,
line 317), or the exception the task raised. -/
inductive Outcome where
  | ok (id : String)
  | err (e : PyExn)
deriving DecidableEq, Repr

/-- Whether an outcome is an exception other than a `FailedJob`. -/
def Outcome.isOther : Outcome → Bool
  | .err (.other _) => true
  | _ => false

/-- The result-collection loop of `JobTracker.run` (lines 166-177),
linearised: for each outstanding result the pool delivers the callback
(`end_job` as `callback`, `job_failed` as `error_callback`, lines 161-162)
and `res.get` returns the value or re-raises the task's exception in the
parent.  `multiprocessing.context.TimeoutError` merely repeats the poll and
is elided; a `FailedJob` is caught on line 176 and the loop moves on; any
other exception propagates out of `run` — the second component carries it —
and the `with` block then terminates the pool, so the outcomes after it are
never processed. -/
def collect : TrackerState → List Outcome → TrackerState × Option String
  | st, [] => (st, none)
  | st, .ok i :: rest => collect (end_job st i) rest
  | st, .err (.failedJob i c) :: rest => collect (job_failed st (.failedJob i c)) rest
  | st, .err (.other m) :: _ => (job_failed st (.other m), some m)

/-- C4: when some task delivers an exception that is not a `FailedJob` (and
the outcomes before it are job-attributable), the run aborts with exactly
that exception propagating to the caller, a CRITICAL entry for it is in the
final log buffer, and the outcomes after it are never processed. -/
theorem C4_critical_is_fatal (st : TrackerState) (pre post : List Outcome) (m : String)
    (hpre : ∀ o ∈ pre, o.isOther = false) :
    (collect st (pre ++ Outcome.err (.other m) :: post)).2 = some m ∧
    LogEntry.mk st.now ("CRITICAL") m ∈
      (collect st (pre ++ Outcome.err (.other m) :: post)).1.log_queue ∧
    collect st (pre ++ Outcome.err (.other m) :: post) =
      collect st (pre ++ [Outcome.err (.other m)]) := by
  induction pre generalizing st with
  | nil =>
      refine ⟨rfl, ?_, rfl⟩
      simp [collect, job_failed, log_add]
  | cons o pre ih =>
      have ho : o.isOther = false := hpre o (by simp)
      have hpre2 : ∀ o2 ∈ pre, o2.isOther = false := fun o2 h2 => hpre o2 (by simp [h2])
      match o with
      | .ok i =>
          have h := ih (end_job st i) hpre2
          have hnow : (end_job st i).now = st.now := rfl
          simpa [collect, hnow] using h
      | .err (.failedJob i c) =>
          have h := ih (job_failed st (.failedJob i c)) hpre2
          have hnow : (job_failed st (.failedJob i c)).now = st.now := rfl
          simpa [collect, hnow] using h
      | .err (.other m2) => simp [Outcome.isOther] at ho

/-- Witness for C4: a concrete collection where the second result carries a
non-`FailedJob` exception; it propagates, is logged CRITICAL, and the third
outcome is never processed. -/
theorem C4_critical_is_fatal_witness :
    (collect (initState 2 1 ("t"))
        ([Outcome.ok ("a")] ++ Outcome.err (.other ("boom")) :: [Outcome.ok ("b")])).2
      = some ("boom") ∧
    LogEntry.mk (initState 2 1 ("t")).now ("CRITICAL") ("boom") ∈
      (collect (initState 2 1 ("t"))
        ([Outcome.ok ("a")] ++ Outcome.err (.other ("boom")) :: [Outcome.ok ("b")])).1.log_queue ∧
    collect (initState 2 1 ("t"))
        ([Outcome.ok ("a")] ++ Outcome.err (.other ("boom")) :: [Outcome.ok ("b")]) =
      collect (initState 2 1 ("t")) ([Outcome.ok ("a")] ++ [Outcome.err (.other ("boom"))]) :=
  C4_critical_is_fatal (initState 2 1 ("t")) [Outcome.ok ("a")] [Outcome.ok ("b")] ("boom")
    (by decide)

/-- One match entry dispatched by `MusicConverter.run` together with the
behaviour of the external converter on it.  The tracker only ever sees the
identifier `item[2]` (the conversion paths are opaque payload): `fails = true`
means `MusicConverter.convert` raises for this job, so `worker`
(lines 288-292) wraps the exception as `FailedJob(e, identifier)` with
`cause` standing for `repr(e)`; `fails = false` means `convert` returns the
identifier. -/
structure Job where
  id : String
  fails : Bool
  cause : String
deriving DecidableEq, Repr

/-- One dispatched job run to its terminal callback (`MusicConverter.worker`
and `convert`, lines 288-317): `convert` first calls
`start_job(identifier)` (line 307); then either the conversion succeeds and
the success callback delivers the identifier to `end_job`, or it raises and
the error callback delivers the `FailedJob` to `job_failed`. -/
def run_one (st : TrackerState) (j : Job) : TrackerState :=
  let st1 := start_job st j.id
  if j.fails then job_failed st1 (.failedJob j.id j.cause) else end_job st1 j.id

/-- Python `JobTracker.run` on `MusicConverter.worker` and the matches list
(lines 140-179, called from line 376), linearised: the dispatch loop queues
every job (line 158), and every dispatched job runs to its terminal callback.
The real pool only permutes which worker runs which job and in which order
the callbacks arrive; each job's own sequence queue → start → terminal is as
modelled, and the final counters are order-independent. -/
def run_batch (st : TrackerState) (jobs : List Job) : TrackerState :=
  jobs.foldl run_one (jobs.foldl (fun s j => queue_job s j.id) st)

theorem queue_fold_prog_fails (jobs : List Job) : ∀ st : TrackerState,
    ((jobs.foldl (fun s j => queue_job s j.id) st).prog = st.prog) ∧
    ((jobs.foldl (fun s j => queue_job s j.id) st).fails = st.fails) := by
  induction jobs with
  | nil => intro st; exact ⟨rfl, rfl⟩
  | cons j t ih =>
      intro st
      obtain ⟨h1, h2⟩ := ih (queue_job st j.id)
      exact ⟨h1.trans rfl, h2.trans rfl⟩

theorem run_one_fold_prog_fails (jobs : List Job) : ∀ st : TrackerState,
    ((jobs.foldl run_one st).prog = st.prog + (jobs.filter fun j => !j.fails).length) ∧
    ((jobs.foldl run_one st).fails = st.fails ++ (jobs.filter fun j => j.fails).map Job.id) := by
  induction jobs with
  | nil => intro st; simp
  | cons j t ih =>
      intro st
      obtain ⟨h1, h2⟩ := ih (run_one st j)
      by_cases hf : j.fails = true
      · have hr1 : (run_one st j).prog = st.prog := by
          simp [run_one, hf, start_job, end_job, job_failed, log_add]
        have hr2 : (run_one st j).fails = st.fails ++ [j.id] := by
          simp [run_one, hf, start_job, end_job, job_failed, log_add]
        refine ⟨?_, ?_⟩
        · rw [List.foldl_cons, h1, hr1]
          simp [List.filter_cons, hf]
        · rw [List.foldl_cons, h2, hr2]
          simp [List.filter_cons, hf]
      · have hf2 : j.fails = false := by simpa using hf
        have hr1 : (run_one st j).prog = st.prog + 1 := by
          simp [run_one, hf2, start_job, end_job, job_failed, log_add]
        have hr2 : (run_one st j).fails = st.fails := by
          simp [run_one, hf2, start_job, end_job, job_failed, log_add]
        refine ⟨?_, ?_⟩
        · rw [List.foldl_cons, h1, hr1]
          simp [List.filter_cons, hf2]
          omega
        · rw [List.foldl_cons, h2, hr2]
          simp [List.filter_cons, hf2]

theorem filter_fails_length_split (jobs : List Job) :
    (jobs.filter fun j => !j.fails).length + (jobs.filter fun j => j.fails).length
      = jobs.length := by
  induction jobs with
  | nil => rfl
  | cons j t iht =>
      by_cases hf : j.fails = true <;> simp [List.filter_cons, hf] <;> omega

/-- C8: for a batch of jobs with distinct identifiers of which exactly the
`fails`-marked ones fail deterministically in the converter, the linearised
run ends with completed count N − K, a failed list that is exactly the K
identifiers of the failing jobs in order, and no identifier of a
non-failing job in the failed list. -/
theorem C8_batch_results (jobs : List Job) (hnd : (jobs.map Job.id).Nodup)
    (total procs : Nat) (now : String) :
    (run_batch (initState total procs now) jobs).prog
        = jobs.length - (jobs.filter fun j => j.fails).length ∧
    (run_batch (initState total procs now) jobs).fails
        = (jobs.filter fun j => j.fails).map Job.id ∧
    (∀ j ∈ jobs, j.fails = false →
      j.id ∉ (run_batch (initState total procs now) jobs).fails) := by
  obtain ⟨hq1, hq2⟩ := queue_fold_prog_fails jobs (initState total procs now)
  obtain ⟨hr1, hr2⟩ := run_one_fold_prog_fails jobs
    (jobs.foldl (fun s j => queue_job s j.id) (initState total procs now))
  have hprog : (run_batch (initState total procs now) jobs).prog
      = (jobs.filter fun j => !j.fails).length := by
    rw [run_batch, hr1, hq1]
    simp [initState]
  have hfails : (run_batch (initState total procs now) jobs).fails
      = (jobs.filter fun j => j.fails).map Job.id := by
    rw [run_batch, hr2, hq2]
    simp [initState]
  have hsplit := filter_fails_length_split jobs
  refine ⟨by omega, hfails, ?_⟩
  intro j hj hjf
  rw [hfails]
  intro hmem
  obtain ⟨j2, hj2mem, hj2id⟩ := List.mem_map.mp hmem
  have hj2 : j2 ∈ jobs := List.mem_of_mem_filter hj2mem
  have hj2f : j2.fails = true := by
    have := List.of_mem_filter hj2mem
    simpa using this
  have heq : j2 = j := List.inj_on_of_nodup_map hnd hj2 hj hj2id
  rw [heq] at hj2f
  rw [hjf] at hj2f
  exact Bool.false_ne_true hj2f

/-- Witness for C8 on a concrete batch of three jobs of which one fails:
the failed list is exactly that job's identifier. -/
theorem C8_batch_results_witness :
    (run_batch (initState 3 2 ("t"))
      ([⟨("a"), false, ("")⟩, ⟨("b"), true, ("x")⟩, ⟨("c"), false, ("")⟩] : List Job)).fails
      = [("b")] :=
  Eq.trans
    ((C8_batch_results
      ([⟨("a"), false, ("")⟩, ⟨("b"), true, ("x")⟩, ⟨("c"), false, ("")⟩] : List Job)
      (by decide) 3 2 ("t")).2.1)
    (by decide)

/-!
Support for C3 (`JobTracker.log_init`, lines 35-53).  The log file name for a
level and a numeric suffix is built with `str(val)`; the freshness argument
for the probing loop needs that distinct suffixes give distinct names, which
rests on the injectivity of the decimal rendering `Nat.repr`, proved first
via the digit correspondence with `Nat.digits`.
-/

theorem toDigitsCore_eq (fuel : Nat) : ∀ (n : Nat) (ds : List Char), 0 < n → n ≤ fuel →
    Nat.toDigitsCore 10 fuel n ds = ((Nat.digits 10 n).map Nat.digitChar).reverse ++ ds := by
  induction fuel with
  | zero => intro n ds hn hle; omega
  | succ f ih =>
      intro n ds hn hle
      have hdig : Nat.digits 10 n = n % 10 :: Nat.digits 10 (n / 10) :=
        Nat.digits_def' (by norm_num) hn
      by_cases h0 : n / 10 = 0
      · have : Nat.toDigitsCore 10 (f + 1) n ds = Nat.digitChar (n % 10) :: ds := by
          simp [Nat.toDigitsCore, h0]
        rw [this, hdig, h0]
        simp
      · have hstep : Nat.toDigitsCore 10 (f + 1) n ds =
            Nat.toDigitsCore 10 f (n / 10) (Nat.digitChar (n % 10) :: ds) := by
          simp [Nat.toDigitsCore, h0]
        have hlt : n / 10 < n := Nat.div_lt_self hn (by norm_num)
        rw [hstep, ih (n / 10) _ (Nat.pos_of_ne_zero h0) (by omega), hdig]
        simp

theorem toDigits_eq (n : Nat) (hn : 0 < n) :
    Nat.toDigits 10 n = ((Nat.digits 10 n).map Nat.digitChar).reverse := by
  unfold Nat.toDigits
  rw [toDigitsCore_eq (n + 1) n [] hn (by omega)]
  simp

/-- Decimal decoding of one digit character. -/
def undigit (c : Char) : Nat := c.toNat - 48

theorem undigit_digitChar : ∀ d : Nat, d < 10 → undigit (Nat.digitChar d) = d := by decide

/-- Decodes the decimal string produced by `Nat.repr`. -/
def reprVal (s : String) : Nat := Nat.ofDigits 10 (s.data.reverse.map undigit)

theorem reprVal_repr (n : Nat) : reprVal (Nat.repr n) = n := by
  rcases Nat.eq_zero_or_pos n with h0 | hp
  · subst h0; decide
  · have hrepr : Nat.repr n = (Nat.toDigits 10 n).asString := rfl
    rw [hrepr, toDigits_eq n hp]
    unfold reprVal
    have hdata : ((((Nat.digits 10 n).map Nat.digitChar).reverse).asString).data
        = ((Nat.digits 10 n).map Nat.digitChar).reverse := rfl
    rw [hdata, List.reverse_reverse, List.map_map]
    have hcongr : (Nat.digits 10 n).map (undigit ∘ Nat.digitChar) = Nat.digits 10 n := by
      have : ∀ d ∈ Nat.digits 10 n, (undigit ∘ Nat.digitChar) d = id d := by
        intro d hd
        exact undigit_digitChar d (Nat.digits_lt_base (by norm_num) hd)
      rw [List.map_congr_left this, List.map_id]
    rw [hcongr, Nat.ofDigits_digits]

theorem repr_injective : Function.Injective Nat.repr := by
  intro m n h
  rw [← reprVal_repr m, ← reprVal_repr n, h]

/-- The inner helper `name(level, val)` of `JobTracker.log_init`
(lines 41-43): the string `'log/' + prefix + level + mid + '.log'` where
`mid` is `'.' + str(val)` for truthy (nonzero) `val` and empty for
`val = 0`. -/
def logName (pre level : String) (val : Nat) : String :=
  ("log/") ++ pre ++ level ++ (if val = 0 then ("") else (".") ++ Nat.repr val) ++ (".log")

theorem logName_val_injective (pre level : String) :
    Function.Injective (logName pre level) := by
  intro v v' h
  have hd : (logName pre level v).data = (logName pre level v').data := by rw [h]
  simp only [logName, String.data_append, List.append_assoc] at hd
  have hmid : (if v = 0 then ("" : String) else (".") ++ Nat.repr v).data
      = (if v' = 0 then ("" : String) else (".") ++ Nat.repr v').data := by
    have h1 := List.append_cancel_left hd
    have h2 := List.append_cancel_left h1
    have h3 := List.append_cancel_left h2
    exact List.append_cancel_right h3
  by_cases hv : v = 0 <;> by_cases hv' : v' = 0
  · omega
  · rw [if_pos hv, if_neg hv'] at hmid
    simp [String.data_append] at hmid
  · rw [if_neg hv, if_pos hv'] at hmid
    simp [String.data_append] at hmid
  · rw [if_neg hv, if_neg hv'] at hmid
    simp only [String.data_append] at hmid
    have hr : (Nat.repr v).data = (Nat.repr v').data := List.append_cancel_left hmid
    have : Nat.repr v = Nat.repr v' := by
      cases hrv : Nat.repr v with
      | mk d => cases hrv' : Nat.repr v' with
        | mk d' =>
            rw [hrv, hrv'] at hr
            simp at hr
            rw [hr]
    exact repr_injective this

/-- The `while True` probe of `log_init` (lines 47-51) for one level: bump
`val` while `os.path.exists(name(level, val))` holds.  The filesystem is a
finite list `fs` of existing path names.  The Python loop terminates because
the candidate names are pairwise distinct, so at most `fs.length` probes can
hit; the `fuel` argument makes the recursion structural, and `probe_free`
shows that `fs.length + 1` fuel — the amount `log_init` passes — is never
exhausted before a free name is found. -/
def probe (fs : List String) (pre level : String) : Nat → Nat → Nat
  | val, 0 => val
  | val, fuel + 1 =>
      if logName pre level val ∈ fs then probe fs pre level (val + 1) fuel else val

theorem probe_not_mem (fs : List String) (pre level : String) (fuel : Nat) :
    ∀ val : Nat,
      ((Finset.Ico val (val + fuel)).filter fun v => logName pre level v ∈ fs).card < fuel →
      logName pre level (probe fs pre level val fuel) ∉ fs := by
  induction fuel with
  | zero => intro val h; omega
  | succ f ih =>
      intro val hfuel
      by_cases hm : logName pre level val ∈ fs
      · have hstep : probe fs pre level val (f + 1) = probe fs pre level (val + 1) f := by
          simp [probe, hm]
        rw [hstep]
        apply ih
        have hins : insert val (Finset.Ico (val + 1) (val + (f + 1)))
            = Finset.Ico val (val + (f + 1)) :=
          Nat.Ico_insert_succ_left (by omega)
        have hcard : ((Finset.Ico val (val + (f + 1))).filter
            fun v => logName pre level v ∈ fs).card
            = ((Finset.Ico (val + 1) (val + (f + 1))).filter
                fun v => logName pre level v ∈ fs).card + 1 := by
          rw [← hins, Finset.filter_insert, if_pos hm,
            Finset.card_insert_of_not_mem (by simp)]
        have harith : val + (f + 1) = (val + 1) + f := by omega
        rw [harith] at hfuel
        rw [harith] at hcard
        rw [hcard] at hfuel
        omega
      · simp only [probe, if_neg hm]
        exact hm

theorem probe_window_card_le (fs : List String) (pre level : String) (val fuel : Nat) :
    ((Finset.Ico val (val + fuel)).filter fun v => logName pre level v ∈ fs).card
      ≤ fs.length := by
  have hsub : (((Finset.Ico val (val + fuel)).filter
      fun v => logName pre level v ∈ fs).image (logName pre level)) ⊆ fs.toFinset := by
    intro x hx
    obtain ⟨v, hv, hvx⟩ := Finset.mem_image.mp hx
    rw [List.mem_toFinset, ← hvx]
    exact (Finset.mem_filter.mp hv).2
  calc ((Finset.Ico val (val + fuel)).filter fun v => logName pre level v ∈ fs).card
      = (((Finset.Ico val (val + fuel)).filter
          fun v => logName pre level v ∈ fs).image (logName pre level)).card :=
        (Finset.card_image_of_injective _ (logName_val_injective pre level)).symm
    _ ≤ fs.toFinset.card := Finset.card_le_card hsub
    _ ≤ fs.length := fs.toFinset_card_le

theorem probe_free (fs : List String) (pre level : String) (val : Nat) :
    logName pre level (probe fs pre level val (fs.length + 1)) ∉ fs :=
  probe_not_mem fs pre level (fs.length + 1) val
    (lt_of_le_of_lt (probe_window_card_le fs pre level val (fs.length + 1))
      (Nat.lt_succ_self _))

theorem probe_of_not_mem (fs : List String) (pre level : String) (val f : Nat)
    (h : logName pre level val ∉ fs) : probe fs pre level val (f + 1) = val := by
  simp [probe, h]

/-- Python `JobTracker.log_init` (lines 35-53) against a filesystem `fs`:
starting from `val = 0`, run the probe loop for the levels `debug`, `info`,
`error` in that order, carrying `val` from one level to the next; then name
all three files with the final `val` (the list comprehension on line 52).
Returns `(debug_log, info_log, error_log)`. -/
def log_init (fs : List String) (pre : String) : String × String × String :=
  let v1 := probe fs pre ("debug") 0 (fs.length + 1)
  let v2 := probe fs pre ("info") v1 (fs.length + 1)
  let v3 := probe fs pre ("error") v2 (fs.length + 1)
  (logName pre ("debug") v3, logName pre ("info") v3, logName pre ("error") v3)

/-- C3 counterexample: with the pre-existing files jt_debug.log,
jt_info.1.log, jt_debug.2.log, the probing settles on suffix 2 (debug stops
at 1, info pushes to 2, error accepts 2) and the chosen debug file name
log/jt_debug.2.log is one of the existing files — the loop never re-checks
earlier levels after bumping `val`, so the claim fails for this set. -/
theorem C3_log_name_collision_counterexample :
    (log_init ([("log/jt_debug.log"), ("log/jt_info.1.log"), ("log/jt_debug.2.log")])
        (("jt_"))).1
      ∈ ([("log/jt_debug.log"), ("log/jt_info.1.log"), ("log/jt_debug.2.log")] : List String) := by
  decide

/-- C3 amended: for every pre-existing set of files, the chosen error log
name (the last one probed) never refers to an existing file; and whenever the
existing files are aligned per numeric suffix across the three levels — as
the runs of this program itself create them, so repeated runs never collide —
none of the three chosen names refers to an existing file. -/
theorem C3_log_init_probing (fs : List String) (pre : String) :
    ((log_init fs pre).2.2 ∉ fs) ∧
    ((∀ v : Nat,
        (logName pre ("debug") v ∈ fs ↔ logName pre ("info") v ∈ fs) ∧
        (logName pre ("info") v ∈ fs ↔ logName pre ("error") v ∈ fs)) →
      (log_init fs pre).1 ∉ fs ∧ (log_init fs pre).2.1 ∉ fs ∧ (log_init fs pre).2.2 ∉ fs) := by
  have herr : (log_init fs pre).2.2 = logName pre ("error")
      (probe fs pre ("error")
        (probe fs pre ("info") (probe fs pre ("debug") 0 (fs.length + 1)) (fs.length + 1))
        (fs.length + 1)) := rfl
  constructor
  · rw [herr]
    exact probe_free fs pre ("error") _
  · intro halign
    have hdeb : logName pre ("debug") (probe fs pre ("debug") 0 (fs.length + 1)) ∉ fs :=
      probe_free fs pre ("debug") 0
    have hinf : logName pre ("info") (probe fs pre ("debug") 0 (fs.length + 1)) ∉ fs :=
      fun hmem => hdeb (((halign _).1).mpr hmem)
    have herr2 : logName pre ("error") (probe fs pre ("debug") 0 (fs.length + 1)) ∉ fs :=
      fun hmem => hinf (((halign _).2).mpr hmem)
    have hv2 : probe fs pre ("info") (probe fs pre ("debug") 0 (fs.length + 1)) (fs.length + 1)
        = probe fs pre ("debug") 0 (fs.length + 1) :=
      probe_of_not_mem fs pre ("info") _ fs.length hinf
    have hv3 : probe fs pre ("error")
        (probe fs pre ("info") (probe fs pre ("debug") 0 (fs.length + 1)) (fs.length + 1))
        (fs.length + 1) = probe fs pre ("debug") 0 (fs.length + 1) := by
      rw [hv2]
      exact probe_of_not_mem fs pre ("error") _ fs.length herr2
    have h1 : (log_init fs pre).1 = logName pre ("debug")
        (probe fs pre ("error")
          (probe fs pre ("info") (probe fs pre ("debug") 0 (fs.length + 1)) (fs.length + 1))
          (fs.length + 1)) := rfl
    have h2 : (log_init fs pre).2.1 = logName pre ("info")
        (probe fs pre ("error")
          (probe fs pre ("info") (probe fs pre ("debug") 0 (fs.length + 1)) (fs.length + 1))
          (fs.length + 1)) := rfl
    refine ⟨?_, ?_, ?_⟩
    · rw [h1, hv3]
      exact hdeb
    · rw [h2, hv3]
      exact hinf
    · rw [herr, hv3]
      exact herr2

/-- Witness for C3 amended on the empty filesystem (trivially aligned): all
three chosen names are fresh. -/
theorem C3_log_init_probing_witness :
    (log_init ([] : List String) (("jt_"))).2.2 ∉ ([] : List String) ∧
    ((log_init ([] : List String) (("jt_"))).1 ∉ ([] : List String) ∧
      (log_init ([] : List String) (("jt_"))).2.1 ∉ ([] : List String) ∧
      (log_init ([] : List String) (("jt_"))).2.2 ∉ ([] : List String)) :=
  ⟨(C3_log_init_probing ([] : List String) (("jt_"))).1,
   (C3_log_init_probing ([] : List String) (("jt_"))).2 (fun v => by simp)⟩

end JobTracker

namespace MusicConverter

open JobTracker

/-- The guard of `MusicConverter.run` (src/musicconverter.py line 375): the
inherited scheduler run (and with it every `show_state` call) is invoked only
when `self.total != 0`. -/
def run_invokes_scheduler (total : Nat) : Bool := total != 0

/-- C7 counterexample: at total = 0 the fraction computation on line 189
raises an uncaught `ZeroDivisionError` (modelled by `none`); it does not
return the guarded value fraction = 1, eta = 0 the claim describes. -/
theorem C7_zero_total_counterexample :
    show_state_calc 0 0 0 0 5 = none ∧ (none : Option (ℚ × ℚ)) ≠ some (1, 0) := by
  constructor
  · norm_num [show_state_calc]
  · simp

/-- C7 amended: the completion fraction equals completed / total whenever
total ≠ 0, but there is no total = 0 guard inside the computation: at
total = 0 it fails with a division by zero.  The zero-job case is instead
guarded at the caller: `MusicConverter.run` skips the scheduler (and all
rendering) when total = 0. -/
theorem C7_fraction_and_guard :
    (∀ (total prog n_queued n_active : Nat) (spent : ℚ), total ≠ 0 →
      (show_state_calc total prog n_queued n_active spent).map Prod.fst =
        some ((prog : ℚ) / (total : ℚ))) ∧
    (∀ (prog n_queued n_active : Nat) (spent : ℚ),
      show_state_calc 0 prog n_queued n_active spent = none) ∧
    run_invokes_scheduler 0 = false := by
  refine ⟨?_, ?_, rfl⟩
  · intro total prog n_queued n_active spent ht
    simp only [show_state_calc, if_neg ht]
    simp
  · intro prog n_queued n_active spent
    simp [show_state_calc]

/-- Witness for C7 amended at total = 10, completed = 5: fraction 1/2. -/
theorem C7_fraction_and_guard_witness :
    (show_state_calc 10 5 0 5 3).map Prod.fst = some ((5 : ℚ) / 10) :=
  C7_fraction_and_guard.1 10 5 0 5 3 (by norm_num)

/-- Python `MusicConverter.music_ext` (src/musicconverter.py lines 256-259).  In the
Python source the list literal contains the adjacent string literals
`'ogg' 'mp2'` — the comma is missing after `'ogg'` (only the comment
`#, 'ape'` separates the lines) — which Python concatenates into the single
element `'oggmp2'`, so the list has 13 elements. -/
def music_ext : List String :=
  [("wav"), ("aiff"), ("wma"), ("alac"), ("spx"), ("wv"), ("oggmp2"),
   ("opus"), ("shn"), ("flac"), ("mp3"), ("au"), ("m4a")]

/-- Holds when `s` ends with `t` (as character lists). -/
def strEndsWith (s t : String) : Prop := t.data <:+ s.data

instance (s t : String) : Decidable (strEndsWith s t) :=
  inferInstanceAs (Decidable (t.data <:+ s.data))

/-- The match predicate of the regular expression produced by
`MusicConverter.regext` (lines 273-286): the pattern
`(re.escape(archive))(.*\.)(e1|e2|...)$` is applied with `re.match`, so a
path matches exactly when it splits as the (literally escaped) archive path,
then group 2 — any text followed by a dot — then one of the extensions as
group 3, ending the string.  (Over-approximating `.*` by arbitrary text,
ignoring its no-newline rule, only strengthens the non-match result below.) -/
def regext_matches (archive : String) (exts : List String) (path : String) : Prop :=
  ∃ mid ext, ext ∈ exts ∧ path = archive ++ mid ++ (".") ++ ext

theorem no_music_match_of_suffix (archive path tgt : String)
    (hend : strEndsWith path tgt)
    (hno : ∀ ext ∈ music_ext,
      ¬ (('.') :: ext.data <:+ tgt.data) ∧ ¬ (tgt.data <:+ ('.') :: ext.data)) :
    ¬ regext_matches archive music_ext path := by
  rintro ⟨mid, ext, hext, heq⟩
  have hsuf : (('.') :: ext.data) <:+ path.data := by
    refine ⟨(archive ++ mid).data, ?_⟩
    rw [heq]
    simp [String.data_append]
  have htot := List.suffix_or_suffix_of_suffix hsuf hend
  rcases htot with h1 | h1
  · exact (hno ext hext).1 h1
  · exact (hno ext hext).2 h1

/-- C10: the music extension list contains the single element "oggmp2" (13
elements in all) rather than "ogg" and "mp2", and consequently no path ending
in ".ogg" or ".mp2" matches the music regex for any archive prefix — so such
files are never appended to `self.matches` by `MusicConverter.files`
(lines 345-353) and are never queued for conversion. -/
theorem C10_ogg_mp2_never_queued :
    ("oggmp2") ∈ music_ext ∧ ("ogg") ∉ music_ext ∧ ("mp2") ∉ music_ext ∧
    music_ext.length = 13 ∧
    (∀ archive path : String,
      strEndsWith path ((".ogg")) ∨ strEndsWith path ((".mp2")) →
      ¬ regext_matches archive music_ext path) := by
  refine ⟨by decide, by decide, by decide, by decide, ?_⟩
  intro archive path hend
  rcases hend with h | h
  · exact no_music_match_of_suffix archive path (".ogg") h (by decide)
  · exact no_music_match_of_suffix archive path (".mp2") h (by decide)

/-- Witness for C10: the concrete path "a.ogg" (with empty archive prefix)
does not match the music regex. -/
theorem C10_ogg_mp2_never_queued_witness :
    ¬ regext_matches ("") music_ext (("a.ogg")) :=
  C10_ogg_mp2_never_queued.2.2.2.2 ("") (("a.ogg")) (Or.inl (by decide))

end MusicConverter
